import Mathlib

/-
Verification of the cache/index subsystem and dataset-normalization routine of
the hanja_memorizer flashcard trainer (src/HanjaMemorizer.py).

The Python code is shallowly embedded as follows:

* The filesystem is an association list from absolute path to parsed file
  content (`Fs`).  `json.dump`/`json.load` round-tripping is modeled as
  identity: a file holds the structured value that was written to it.  An
  interrupted write (a file truncated by `open(path, 'w')` whose content was
  never written) is the `FileData.corrupt` constructor; `json.load` raises on
  such a file, and `load_cache_index`'s bare `except` turns that into the
  empty index.
* `os.path.expanduser("~")` is modeled as the fixed home directory
  "/home/user", giving a fixed absolute `CACHE_DIR`, and `os.path.join a b`
  keeps POSIX semantics: it returns `b` unchanged when `b` is absolute.
* `datetime.now().strftime("%Y%m%d_%H%M%S")` is an ambient input: the
  timestamp string is passed to `add_to_cache` as an argument.  The predicate
  `validTimestamp` captures the shape every string produced by that strftime
  call has (8 digits, an underscore, 6 digits).
* Python's Unicode word-character class `\w` (used in `re.sub(r'[^\w\-_]', …)`)
  is modeled by `isWordCharModel`: ASCII alphanumerics, the underscore, and
  every non-ASCII codepoint.  No theorem below depends on the exact Unicode
  word classification; sanitized names in all concrete instances are ASCII.
* A pandas cell is `Option String`: `none` is a missing value (`pd.notna`
  false), `some s` is a cell whose `str()` is `s`.  A row is a list of cells;
  `row.iloc[k]` on an out-of-range `k` raises, which `parse_dataframe`'s
  bare `except: continue` turns into skipping the row.
-/

/-- One character/reading/meaning triple, as produced by
`HanjaMemorizer.parse_dataframe` and stored in cache files. -/
structure HanjaRecord where
  hanja : String
  reading : String
  meaning : String
deriving DecidableEq, Repr

/-- One record of the `"files"` array of cache_index.json, as built by
`add_to_cache` (src/HanjaMemorizer.py lines 77-84). -/
structure CacheEntry where
  name : String
  source_type : String
  source_path : String
  cache_file : String
  cached_at : String
  count : Nat
deriving DecidableEq, Repr

/-- The parsed content of cache_index.json: a JSON object with a `"files"`
array. -/
structure CacheIndex where
  files : List CacheEntry
deriving DecidableEq, Repr

/-- Parsed content of a file in the cache directory: a JSON array of records
(written by `add_to_cache`), a JSON index object (written by
`save_cache_index`), or content on which `json.load` raises (e.g. a file
truncated by an interrupted write). -/
inductive FileData where
  | recordsFile : List HanjaRecord → FileData
  | indexFile : CacheIndex → FileData
  | corrupt : FileData
deriving DecidableEq, Repr

/-- The filesystem: newest binding first; a write shadows older bindings. -/
def Fs : Type := List (String × FileData)

/-- Value of `CACHE_DIR = os.path.join(os.path.expanduser("~"), ".hanja_memorizer")`,
with the home directory fixed to "/home/user" (src line 27). -/
def CACHE_DIR : String := "/home/user/.hanja_memorizer"

/-- Value of `CACHE_INDEX_FILE = os.path.join(CACHE_DIR, "cache_index.json")`
(src line 28). -/
def CACHE_INDEX_FILE : String := CACHE_DIR ++ "/" ++ "cache_index.json"

/-- POSIX `os.path.join` for the two-argument uses in the source: if the
second component is absolute it is returned unchanged, otherwise the
components are joined with a slash. -/
def osPathJoin (a b : String) : String :=
  if b.data.head? = some '/' then b else a ++ "/" ++ b

/-- Look a path up in the filesystem (newest binding wins). -/
def fsLookup (fs : Fs) (p : String) : Option FileData :=
  match fs with
  | [] => none
  | (q, d) :: rest => if q = p then some d else fsLookup rest p

/-- Write (create or overwrite) a file. -/
def fsWrite (fs : Fs) (p : String) (d : FileData) : Fs :=
  (p, d) :: fs

/-- Model of `os.remove` guarded by `os.path.exists` (src lines 94-95): removing a
missing path is a no-op, so this is total. -/
def fsRemove (fs : Fs) (p : String) : Fs :=
  match fs with
  | [] => []
  | (q, d) :: rest => if q = p then fsRemove rest p else (q, d) :: fsRemove rest p

/-- Embedding of `load_cache_index` (src lines 37-46): read cache_index.json; a missing
file or a file `json.load` raises on yields the empty index `{"files": []}`.
(Content that parses but is not an index object would surface as a TypeError
in the caller in Python; no modeled execution stores such content at the
index path — cache filenames always embed a 15-character timestamp and so
never equal "cache_index.json" — and the model maps it to the empty index.) -/
def load_cache_index (fs : Fs) : CacheIndex :=
  match fsLookup fs CACHE_INDEX_FILE with
  | some (FileData.indexFile i) => i
  | some _ => { files := [] }
  | none => { files := [] }

/-- A single filesystem action, used to make the intermediate states of
`save_cache_index` visible (crash-atomicity analysis for the persisted
index). -/
inductive FsOp where
  | openTrunc : String → FsOp
  | writeAll : String → FileData → FsOp
  | rename : String → String → FsOp
  | remove : String → FsOp
deriving DecidableEq, Repr

/-- Apply one filesystem action.  `open(p, 'w')` truncates the file, leaving
content `json.load` would raise on until the subsequent write lands. -/
def applyOp (fs : Fs) : FsOp → Fs
  | FsOp.openTrunc p => fsWrite fs p FileData.corrupt
  | FsOp.writeAll p d => fsWrite fs p d
  | FsOp.rename src dst =>
      match fsLookup fs src with
      | some d => fsWrite (fsRemove fs src) dst d
      | none => fs
  | FsOp.remove p => fsRemove fs p

/-- Apply a sequence of filesystem actions in order. -/
def applyOps (fs : Fs) (ops : List FsOp) : Fs :=
  ops.foldl applyOp fs

/-- The filesystem actions `save_cache_index` performs (src lines 49-53):
`open(CACHE_INDEX_FILE, 'w')` truncates the index file in place, then
`json.dump` writes the new content.  There is no temporary file and no
rename. -/
def save_cache_index_ops (index : CacheIndex) : List FsOp :=
  [FsOp.openTrunc CACHE_INDEX_FILE,
   FsOp.writeAll CACHE_INDEX_FILE (FileData.indexFile index)]

/-- The result of `load_from_cache`: Python returns `None` when the file does
not exist, returns the parsed JSON when it does, and propagates the
`json.load` exception on unparsable content (there is no try/except in
src lines 101-107). -/
inductive LoadResult where
  | noneResult : LoadResult
  | loaded : FileData → LoadResult
  | jsonError : LoadResult
deriving DecidableEq, Repr

/-- Embedding of `load_from_cache` (src lines 101-107). -/
def load_from_cache (fs : Fs) (cache_filename : String) : LoadResult :=
  match fsLookup fs (osPathJoin CACHE_DIR cache_filename) with
  | none => LoadResult.noneResult
  | some FileData.corrupt => LoadResult.jsonError
  | some d => LoadResult.loaded d

/-- Model of Python's Unicode `\w` class: ASCII alphanumerics, underscore,
and (as an approximation of the Unicode word characters) every non-ASCII
codepoint.  See the header comment. -/
def isWordCharModel (c : Char) : Bool :=
  c.isAlphanum || c = '_' || c.toNat ≥ 128

/-- A character kept by `re.sub(r'[^\w\-_]', '_', name)`: a word character,
a hyphen, or an underscore. -/
def isKeptChar (c : Char) : Bool :=
  isWordCharModel c || c = '-'

/-- One step of the substitution: non-kept characters become '_'. -/
def sanitizeChar (c : Char) : Char :=
  if isKeptChar c then c else '_'

/-- Embedding of `re.sub(r'[^\w\-_]', '_', name)[:50]` (src line 62): substitute, then
keep the first 50 code points. -/
def safeName (name : String) : String :=
  String.mk ((name.data.map sanitizeChar).take 50)

/-- The generated cache filename `f"{safe_name}_{timestamp}.json"`
(src line 63). -/
def cacheFilename (name ts : String) : String :=
  safeName name ++ "_" ++ ts ++ ".json"

/-- The shape of every string `datetime.now().strftime("%Y%m%d_%H%M%S")`
produces: 15 characters, an underscore at position 8, digits elsewhere. -/
def validTimestamp (ts : String) : Bool :=
  ts.data.length = 15
    && ts.data.getD 8 ' ' = '_'
    && (List.range 15).all (fun i => i = 8 || (ts.data.getD i ' ').isDigit)

/-- Stage 1 of `add_to_cache` (src lines 61-68): the filesystem after the
records have been written to the freshly generated cache file path. -/
def writtenFs (name : String) (data : List HanjaRecord) (ts : String) (fs : Fs) : Fs :=
  fsWrite fs (osPathJoin CACHE_DIR (cacheFilename name ts)) (FileData.recordsFile data)

/-- The new index record `add_to_cache` inserts (src lines 77-84). -/
def newEntryOf (name source_type source_path : String) (data : List HanjaRecord)
    (ts : String) : CacheEntry :=
  { name := name, source_type := source_type, source_path := source_path,
    cache_file := cacheFilename name ts, cached_at := ts, count := data.length }

/-- Stage 2 of `add_to_cache` (src line 74): the reloaded index entries with
every entry sharing `source_path` removed. -/
def keptOf (name source_path : String) (data : List HanjaRecord) (ts : String)
    (fs : Fs) : List CacheEntry :=
  (load_cache_index (writtenFs name data ts fs)).files.filter
    (fun f => !(f.source_path = source_path : Bool))

/-- Stage 3 of `add_to_cache` (src line 77): the new entry inserted at the
front of the deduplicated list, before the 20-entry cap is applied. -/
def updatedFiles (name source_type source_path : String) (data : List HanjaRecord)
    (ts : String) (fs : Fs) : List CacheEntry :=
  newEntryOf name source_type source_path data ts :: keptOf name source_path data ts fs

/-- The entries `add_to_cache` evicts on this call (the part of the updated
list beyond the 20-entry cap, src line 88); empty when the cap is not
exceeded. -/
def evictedBy (name source_type source_path : String) (data : List HanjaRecord)
    (ts : String) (fs : Fs) : List CacheEntry :=
  (updatedFiles name source_type source_path data ts fs).drop 20

/-- The `"files"` list `add_to_cache` persists: the updated list, truncated
to 20 entries when it exceeds the cap (src lines 86-89). -/
def filesAfterAdd (name source_type source_path : String) (data : List HanjaRecord)
    (ts : String) (fs : Fs) : List CacheEntry :=
  if (updatedFiles name source_type source_path data ts fs).length > 20 then
    (updatedFiles name source_type source_path data ts fs).take 20
  else
    updatedFiles name source_type source_path data ts fs

/-- Embedding of `add_to_cache` (src lines 56-98): write the records to a freshly named
cache file, reload the index, drop every entry with the same `source_path`,
insert the new entry at the front, truncate the index to 20 entries deleting
the backing files of the entries beyond the cap, save the index, and return
the full cache file path. -/
def add_to_cache (name source_type source_path : String) (data : List HanjaRecord)
    (timestamp : String) (fs : Fs) : Fs × String :=
  if (updatedFiles name source_type source_path data timestamp fs).length > 20 then
    (fsWrite
      (((updatedFiles name source_type source_path data timestamp fs).drop 20).foldl
        (fun a old => fsRemove a (osPathJoin CACHE_DIR old.cache_file))
        (writtenFs name data timestamp fs))
      CACHE_INDEX_FILE
      (FileData.indexFile
        { files := (updatedFiles name source_type source_path data timestamp fs).take 20 }),
     osPathJoin CACHE_DIR (cacheFilename name timestamp))
  else
    (fsWrite (writtenFs name data timestamp fs) CACHE_INDEX_FILE
      (FileData.indexFile
        { files := updatedFiles name source_type source_path data timestamp fs }),
     osPathJoin CACHE_DIR (cacheFilename name timestamp))

/-- The arguments of one `add_to_cache` call. -/
structure AddReq where
  name : String
  source_type : String
  source_path : String
  data : List HanjaRecord
  ts : String
deriving Repr

/-- Run one `add_to_cache` call for its filesystem effect. -/
def applyAdd (fs : Fs) (r : AddReq) : Fs :=
  (add_to_cache r.name r.source_type r.source_path r.data r.ts fs).1

/-- Run a sequence of `add_to_cache` calls. -/
def applyAdds (fs : Fs) (rs : List AddReq) : Fs :=
  rs.foldl applyAdd fs

/-- Embedding of `str(cell) if pd.notna(cell) else ""` (src lines 736-738). -/
def cellStr : Option String → String
  | none => ""
  | some s => s

/-- Embedding of `HanjaMemorizer.parse_dataframe` (src lines 730-749): per row, read the
cells at 0-based positions 1, 2, 3; a row too short to have them raises and
is skipped by the bare `except: continue`; a row is appended exactly when its
character string is non-empty, not "nan", and not the header label "한자". -/
def parse_dataframe : List (List (Option String)) → List HanjaRecord
  | [] => []
  | row :: rest =>
    match row.get? 1, row.get? 2, row.get? 3 with
    | some c1, some c2, some c3 =>
      let hanja := cellStr c1
      if hanja ≠ "" ∧ hanja ≠ "nan" ∧ hanja ≠ "한자" then
        { hanja := hanja, reading := cellStr c2, meaning := cellStr c3 }
          :: parse_dataframe rest
      else
        parse_dataframe rest
    | _, _, _ => parse_dataframe rest

/-- Modelled from the spec (claim C4, as amended): `parseRows` described
row-by-row — read logical columns 2, 3, 4 (1-indexed), coerce missing cells
to the empty string, skip rows whose extraction fails, and include a row
exactly when its character column is non-empty, differs from the literal
string "nan", and differs from the header label. -/
def parseRowsSpec (rows : List (List (Option String))) : List HanjaRecord :=
  rows.filterMap (fun row =>
    match row.get? 1, row.get? 2, row.get? 3 with
    | some c1, some c2, some c3 =>
      if cellStr c1 ≠ "" ∧ cellStr c1 ≠ "nan" ∧ cellStr c1 ≠ "한자" then
        some { hanja := cellStr c1, reading := cellStr c2, meaning := cellStr c3 }
      else
        none
    | _, _, _ => none)

/-- The character class `[a-zA-Z0-9-_]` of both sheet-id regex patterns
(src lines 113-114). -/
def isSheetIdChar (c : Char) : Bool :=
  c.isAlphanum || c = '-' || c = '_'

/-- Model of `re.search` specialized to the two patterns of
`extract_google_sheet_id`: a literal followed by a greedy non-empty run of
`isSheetIdChar` characters.  The scan tries each start position left to
right; at a position the literal must match and at least one class character
must follow; the capture is the maximal run. -/
def searchLitRun (lit : List Char) : List Char → Option (List Char)
  | [] => none
  | c :: rest =>
      if lit.isPrefixOf (c :: rest) then
        if (((c :: rest).drop lit.length).takeWhile isSheetIdChar).isEmpty then
          searchLitRun lit rest
        else
          some (((c :: rest).drop lit.length).takeWhile isSheetIdChar)
      else searchLitRun lit rest

/-- Embedding of `extract_google_sheet_id` (src lines 110-120): try the path-segment
pattern, then the query-parameter pattern. -/
def extract_google_sheet_id (url : String) : Option String :=
  match searchLitRun "/spreadsheets/d/".data url.data with
  | some r => some (String.mk r)
  | none =>
    match searchLitRun "id=".data url.data with
    | some r => some (String.mk r)
    | none => none

/-- Embedding of `get_google_sheet_csv_url` (src lines 123-128). -/
def get_google_sheet_csv_url (sheet_url gid : String) : Option String :=
  match extract_google_sheet_id sheet_url with
  | some sheet_id =>
      some ("https://docs.google.com/spreadsheets/d/" ++ sheet_id
        ++ "/export?format=csv&gid=" ++ gid)
  | none => none

/-- Declarative statement that a literal-then-identifier-run pattern matches
somewhere in a string: the string splits as prelude, literal, and at least
one identifier character. -/
def PatMatches (lit s : String) : Prop :=
  ∃ pre c rest, s.data = pre ++ lit.data ++ c :: rest ∧ isSheetIdChar c = true

/-- Looking up after a write: the written path returns the new content,
every other path is unchanged. -/
theorem fsLookup_write (fs : Fs) (p q : String) (d : FileData) :
    fsLookup (fsWrite fs p d) q = if p = q then some d else fsLookup fs q := rfl

/-- Looking up after a remove: the removed path is gone, every other path is
unchanged. -/
theorem fsLookup_remove (fs : Fs) (p q : String) :
    fsLookup (fsRemove fs p) q = if p = q then none else fsLookup fs q := by
  induction fs with
  | nil => simp [fsRemove, fsLookup]
  | cons kv rest ih =>
    obtain ⟨r, d⟩ := kv
    simp only [fsRemove]
    by_cases hrp : r = p
    · rw [if_pos hrp, ih]
      by_cases hq : p = q
      · simp [hq]
      · have hr : ¬ r = q := by rw [hrp]; exact hq
        simp [fsLookup, hq, hr]
    · rw [if_neg hrp]
      simp only [fsLookup]
      by_cases hq : r = q
      · have hpq : ¬ p = q := by
          intro h
          exact hrp (by rw [h, hq])
        simp [hq, hpq]
      · simp [hq, ih]

/-- Looking up after the eviction loop of `add_to_cache`: a path is gone
exactly when it is the backing path of one of the folded-over entries. -/
theorem fsLookup_removeFold (l : List CacheEntry) (fs : Fs) (q : String) :
    fsLookup (l.foldl (fun a old => fsRemove a (osPathJoin CACHE_DIR old.cache_file)) fs) q
      = if ∃ o ∈ l, osPathJoin CACHE_DIR o.cache_file = q then none
        else fsLookup fs q := by
  induction l generalizing fs with
  | nil => simp
  | cons o rest ih =>
    simp only [List.foldl_cons]
    rw [ih]
    by_cases hq : osPathJoin CACHE_DIR o.cache_file = q
    · simp [hq, fsLookup_remove]
    · simp [hq, fsLookup_remove]

/-- The sanitizing substitution never produces a slash. -/
theorem sanitizeChar_ne_slash (c : Char) : sanitizeChar c ≠ '/' := by
  unfold sanitizeChar
  by_cases h : isKeptChar c = true
  · rw [if_pos h]
    intro hc
    subst hc
    exact absurd h (by decide)
  · rw [if_neg h]
    decide

/-- Every character of a sanitized name differs from the slash. -/
theorem safeName_no_slash (name : String) : ∀ c ∈ (safeName name).data, c ≠ '/' := by
  intro c hc
  have hm : c ∈ name.data.map sanitizeChar := List.mem_of_mem_take hc
  obtain ⟨c0, _, rfl⟩ := List.mem_map.1 hm
  exact sanitizeChar_ne_slash c0

/-- The character list of a generated cache filename. -/
theorem cacheFilename_data (name ts : String) :
    (cacheFilename name ts).data
      = (safeName name).data ++ "_".data ++ ts.data ++ ".json".data := by
  simp [cacheFilename, String.data_append]

/-- A generated cache filename never begins with a slash, so `os.path.join`
actually joins it onto the cache directory. -/
theorem cacheFilename_head_ne_slash (name ts : String) :
    ¬ (cacheFilename name ts).data.head? = some '/' := by
  rw [cacheFilename_data]
  cases hn : (safeName name).data with
  | nil => simp [show ("_" : String).data = ['_'] from rfl]
  | cons c cs =>
    simp only [List.cons_append, List.head?_cons]
    intro h
    have hc : c = '/' := by simpa using h
    exact safeName_no_slash name c (hn ▸ List.mem_cons_self c cs) hc

/-- The generated cache file path expands as a join below `CACHE_DIR`. -/
theorem osPathJoin_cacheFilename (name ts : String) :
    osPathJoin CACHE_DIR (cacheFilename name ts)
      = CACHE_DIR ++ "/" ++ cacheFilename name ts := by
  unfold osPathJoin
  rw [if_neg (cacheFilename_head_ne_slash name ts)]

/-- A valid strftime timestamp has exactly 15 characters. -/
theorem validTimestamp_length (ts : String) (h : validTimestamp ts = true) :
    ts.data.length = 15 := by
  unfold validTimestamp at h
  simp only [Bool.and_eq_true, decide_eq_true_eq] at h
  exact h.1.1

/-- The length of a generated cache filename. -/
theorem cacheFilename_length (name ts : String) :
    (cacheFilename name ts).data.length
      = (safeName name).data.length + 1 + ts.data.length + 5 := by
  rw [cacheFilename_data]
  simp [List.length_append]
  omega

/-- With a well-formed timestamp, the generated cache filename is never the
reserved index filename. -/
theorem cacheFilename_ne_index (name ts : String) (h : validTimestamp ts = true) :
    cacheFilename name ts ≠ "cache_index.json" := by
  intro he
  have h1 : (cacheFilename name ts).data.length
      = ("cache_index.json" : String).data.length := by rw [he]
  rw [cacheFilename_length name ts, validTimestamp_length ts h] at h1
  have h2 : ("cache_index.json" : String).data.length = 16 := rfl
  omega

/-- With a well-formed timestamp, the generated cache file path is never the
index file path. -/
theorem cacheFilepath_ne_indexFile (name ts : String) (h : validTimestamp ts = true) :
    osPathJoin CACHE_DIR (cacheFilename name ts) ≠ CACHE_INDEX_FILE := by
  rw [osPathJoin_cacheFilename]
  intro he
  have hd := congrArg String.data he
  simp only [CACHE_INDEX_FILE, String.data_append] at hd
  have hfn : (cacheFilename name ts).data = ("cache_index.json" : String).data :=
    List.append_cancel_left hd
  exact cacheFilename_ne_index name ts h (String.ext hfn)

/-- Writing anywhere except the index file leaves the loaded index
unchanged. -/
theorem load_cache_index_write_ne (fs : Fs) (p : String) (d : FileData)
    (h : p ≠ CACHE_INDEX_FILE) :
    load_cache_index (fsWrite fs p d) = load_cache_index fs := by
  unfold load_cache_index
  rw [fsLookup_write, if_neg h]

/-- Reading the index straight after writing it returns what was written. -/
theorem load_cache_index_write_index (fs : Fs) (i : CacheIndex) :
    load_cache_index (fsWrite fs CACHE_INDEX_FILE (FileData.indexFile i)) = i := by
  unfold load_cache_index
  rw [fsLookup_write, if_pos rfl]

/-- With a well-formed timestamp, the cache-file write of stage 1 does not
disturb the index that stages 2 and 3 reload. -/
theorem load_index_writtenFs (name : String) (data : List HanjaRecord) (ts : String)
    (fs : Fs) (h : validTimestamp ts = true) :
    load_cache_index (writtenFs name data ts fs) = load_cache_index fs :=
  load_cache_index_write_ne fs _ _ (cacheFilepath_ne_indexFile name ts h)

/-- The file reference `add_to_cache` returns is the generated cache file
path. -/
theorem add_to_cache_snd (name st sp : String) (data : List HanjaRecord)
    (ts : String) (fs : Fs) :
    (add_to_cache name st sp data ts fs).2
      = osPathJoin CACHE_DIR (cacheFilename name ts) := by
  unfold add_to_cache
  by_cases h : (updatedFiles name st sp data ts fs).length > 20
  · rw [if_pos h]
  · rw [if_neg h]

/-- The index persisted by `add_to_cache` is exactly `filesAfterAdd`. -/
theorem load_index_after_add (name st sp : String) (data : List HanjaRecord)
    (ts : String) (fs : Fs) :
    load_cache_index (add_to_cache name st sp data ts fs).1
      = { files := filesAfterAdd name st sp data ts fs } := by
  unfold add_to_cache filesAfterAdd
  by_cases h : (updatedFiles name st sp data ts fs).length > 20
  · rw [if_pos h, if_pos h]
    exact load_cache_index_write_index _ _
  · rw [if_neg h, if_neg h]
    exact load_cache_index_write_index _ _

/-- Looking up any path other than the index file after `add_to_cache`:
evicted backing paths are gone, everything else reads as in the
intermediate state that already contains the new cache file. -/
theorem fsLookup_after_add (name st sp : String) (data : List HanjaRecord)
    (ts : String) (fs : Fs) (q : String) (hq : q ≠ CACHE_INDEX_FILE) :
    fsLookup (add_to_cache name st sp data ts fs).1 q
      = if ∃ o ∈ evictedBy name st sp data ts fs,
            osPathJoin CACHE_DIR o.cache_file = q then none
        else fsLookup (writtenFs name data ts fs) q := by
  have hne : ¬ CACHE_INDEX_FILE = q := fun h => hq h.symm
  unfold add_to_cache evictedBy
  by_cases h : (updatedFiles name st sp data ts fs).length > 20
  · rw [if_pos h]
    dsimp only
    rw [fsLookup_write, if_neg hne, fsLookup_removeFold]
  · rw [if_neg h]
    have hdrop : (updatedFiles name st sp data ts fs).drop 20 = [] :=
      List.drop_eq_nil_of_le (by omega)
    dsimp only
    rw [fsLookup_write, if_neg hne, hdrop]
    simp

/-- The persisted list never exceeds the 20-entry cap, whatever the starting
state. -/
theorem filesAfterAdd_length_le (name st sp : String) (data : List HanjaRecord)
    (ts : String) (fs : Fs) :
    (filesAfterAdd name st sp data ts fs).length ≤ 20 := by
  unfold filesAfterAdd
  by_cases h : (updatedFiles name st sp data ts fs).length > 20
  · rw [if_pos h]
    simp [List.length_take]
  · rw [if_neg h]
    omega

/-- The persisted list is the new entry followed by an initial segment of the
deduplicated survivors. -/
theorem filesAfterAdd_shape (name st sp : String) (data : List HanjaRecord)
    (ts : String) (fs : Fs) :
    ∃ n, filesAfterAdd name st sp data ts fs
      = newEntryOf name st sp data ts :: (keptOf name sp data ts fs).take n := by
  unfold filesAfterAdd updatedFiles
  by_cases h : (newEntryOf name st sp data ts :: keptOf name sp data ts fs).length > 20
  · refine ⟨19, ?_⟩
    rw [if_pos h]
    rfl
  · refine ⟨(keptOf name sp data ts fs).length, ?_⟩
    rw [if_neg h]
    rw [List.take_length]

/-- No survivor of the deduplication step still carries the added source
path. -/
theorem keptOf_source_ne (name sp : String) (data : List HanjaRecord) (ts : String)
    (fs : Fs) : ∀ e ∈ keptOf name sp data ts fs, ¬ e.source_path = sp := by
  intro e he
  unfold keptOf at he
  have := List.of_mem_filter he
  simpa using this

/-- The survivors of the deduplication step are a sublist of the loaded
index entries. -/
theorem keptOf_sublist (name sp : String) (data : List HanjaRecord) (ts : String)
    (fs : Fs) (h : validTimestamp ts = true) :
    List.Sublist (keptOf name sp data ts fs) (load_cache_index fs).files := by
  unfold keptOf
  rw [load_index_writtenFs name data ts fs h]
  exact List.filter_sublist _

/-- C1: starting from any index state satisfying the one-entry-per-source
invariant and already containing the added source identifier, `add_to_cache`
leaves exactly one entry with that source identifier, places it at position
0, and preserves the at-most-one-entry-per-source invariant.  The
`validTimestamp` hypothesis records the shape every ambient strftime
timestamp has. -/
theorem c1_duplicate_source_replaced_to_front
    (name st sp ts : String) (data : List HanjaRecord) (fs : Fs)
    (hts : validTimestamp ts = true)
    (_hmem : sp ∈ (load_cache_index fs).files.map CacheEntry.source_path)
    (huniq : ((load_cache_index fs).files.map CacheEntry.source_path).Nodup) :
    ((load_cache_index (add_to_cache name st sp data ts fs).1).files.filter
        (fun e => (e.source_path = sp : Bool))).length = 1
    ∧ (∃ e, (load_cache_index (add_to_cache name st sp data ts fs).1).files.head?
          = some e ∧ e.source_path = sp)
    ∧ ((load_cache_index (add_to_cache name st sp data ts fs).1).files.map
        CacheEntry.source_path).Nodup := by
  rw [load_index_after_add]
  dsimp only
  obtain ⟨n, hshape⟩ := filesAfterAdd_shape name st sp data ts fs
  rw [hshape]
  have hkept : ∀ e ∈ (keptOf name sp data ts fs).take n, ¬ e.source_path = sp := by
    intro e he
    exact keptOf_source_ne name sp data ts fs e (List.mem_of_mem_take he)
  refine ⟨?_, ?_, ?_⟩
  · have hnew : ((newEntryOf name st sp data ts).source_path = sp : Bool) = true := by
      simp [newEntryOf]
    have hnil : ((keptOf name sp data ts fs).take n).filter
        (fun e => (e.source_path = sp : Bool)) = [] := by
      rw [List.filter_eq_nil_iff]
      intro e he
      simpa using hkept e he
    simp [List.filter_cons, hnew, hnil]
  · exact ⟨newEntryOf name st sp data ts, rfl, rfl⟩
  · have hsub1 : List.Sublist ((keptOf name sp data ts fs).take n)
        (keptOf name sp data ts fs) := List.take_sublist n _
    have hsub : List.Sublist
        (((keptOf name sp data ts fs).take n).map CacheEntry.source_path)
        ((load_cache_index fs).files.map CacheEntry.source_path) :=
      (hsub1.trans (keptOf_sublist name sp data ts fs hts)).map _
    rw [List.map_cons]
    refine List.nodup_cons.mpr ⟨?_, huniq.sublist hsub⟩
    intro hmem2
    obtain ⟨e, he, heq⟩ := List.mem_map.1 hmem2
    exact hkept e he heq

/-- Witness for C1 at a concrete one-entry index that already contains the
source identifier "src". -/
theorem c1_duplicate_source_replaced_to_front_witness :
    (validTimestamp "20240102_120000" = true
      ∧ "src" ∈ (load_cache_index
          [(CACHE_INDEX_FILE, FileData.indexFile
            { files := [{ name := "B", source_type := "local", source_path := "src",
                          cache_file := "B_20240101_000000.json",
                          cached_at := "20240101_000000", count := 1 }] })]).files.map
          CacheEntry.source_path)
    ∧ ((load_cache_index (add_to_cache "A" "local" "src"
          [{ hanja := "一", reading := "il", meaning := "one" }] "20240102_120000"
          [(CACHE_INDEX_FILE, FileData.indexFile
            { files := [{ name := "B", source_type := "local", source_path := "src",
                          cache_file := "B_20240101_000000.json",
                          cached_at := "20240101_000000", count := 1 }] })]).1).files.filter
        (fun e => (e.source_path = "src" : Bool))).length = 1
    ∧ (∃ e, (load_cache_index (add_to_cache "A" "local" "src"
          [{ hanja := "一", reading := "il", meaning := "one" }] "20240102_120000"
          [(CACHE_INDEX_FILE, FileData.indexFile
            { files := [{ name := "B", source_type := "local", source_path := "src",
                          cache_file := "B_20240101_000000.json",
                          cached_at := "20240101_000000", count := 1 }] })]).1).files.head?
          = some e ∧ e.source_path = "src")
    ∧ ((load_cache_index (add_to_cache "A" "local" "src"
          [{ hanja := "一", reading := "il", meaning := "one" }] "20240102_120000"
          [(CACHE_INDEX_FILE, FileData.indexFile
            { files := [{ name := "B", source_type := "local", source_path := "src",
                          cache_file := "B_20240101_000000.json",
                          cached_at := "20240101_000000", count := 1 }] })]).1).files.map
        CacheEntry.source_path).Nodup := by
  refine ⟨⟨by decide, by decide⟩, ?_⟩
  exact c1_duplicate_source_replaced_to_front "A" "local" "src" "20240102_120000"
    [{ hanja := "一", reading := "il", meaning := "one" }]
    [(CACHE_INDEX_FILE, FileData.indexFile
      { files := [{ name := "B", source_type := "local", source_path := "src",
                    cache_file := "B_20240101_000000.json",
                    cached_at := "20240101_000000", count := 1 }] })]
    (by decide) (by decide) (by decide)

/-- C2: (a) starting from an index of at most 20 entries, no sequence of
`add_to_cache` calls can make the persisted index exceed 20 entries;
(b) after a call that evicts an entry, the evicted entry's backing cache
file no longer exists (for every entry whose backing path is not the
reserved index path — the only backing paths the program ever creates). -/
theorem c2_cap_and_eviction :
    (∀ (rs : List AddReq) (fs : Fs),
        (load_cache_index fs).files.length ≤ 20
        → (load_cache_index (applyAdds fs rs)).files.length ≤ 20)
    ∧ (∀ (r : AddReq) (fs : Fs) (old : CacheEntry),
        old ∈ evictedBy r.name r.source_type r.source_path r.data r.ts fs
        → osPathJoin CACHE_DIR old.cache_file ≠ CACHE_INDEX_FILE
        → fsLookup (applyAdd fs r) (osPathJoin CACHE_DIR old.cache_file) = none) := by
  constructor
  · intro rs
    induction rs with
    | nil => intro fs h; exact h
    | cons r rest ih =>
      intro fs _
      have hstep : (load_cache_index (applyAdd fs r)).files.length ≤ 20 := by
        unfold applyAdd
        rw [load_index_after_add]
        exact filesAfterAdd_length_le r.name r.source_type r.source_path r.data r.ts fs
      exact ih (applyAdd fs r) hstep
  · intro r fs old hold hne
    unfold applyAdd
    rw [fsLookup_after_add r.name r.source_type r.source_path r.data r.ts fs _ hne]
    rw [if_pos ⟨old, hold, rfl⟩]

/-- Witness for C2: the empty starting state for the cap bound, and a
21-entry starting index (20 distinct-file copies of one source plus the new
entry) for the eviction branch. -/
theorem c2_cap_and_eviction_witness :
    ((load_cache_index [] : CacheIndex).files.length ≤ 20
      ∧ (load_cache_index (applyAdds []
          [{ name := "A", source_type := "local", source_path := "src",
             data := [], ts := "20240101_000000" }])).files.length ≤ 20)
    ∧ fsLookup
        (applyAdd
          [(CACHE_INDEX_FILE, FileData.indexFile
            { files := List.replicate 20
                { name := "B", source_type := "local", source_path := "other",
                  cache_file := "B_20240101_000000.json",
                  cached_at := "20240101_000000", count := 1 } })]
          { name := "A", source_type := "local", source_path := "src",
            data := [], ts := "20240102_000000" })
        (osPathJoin CACHE_DIR "B_20240101_000000.json") = none := by
  refine ⟨⟨by decide, ?_⟩, ?_⟩
  · exact c2_cap_and_eviction.1
      [{ name := "A", source_type := "local", source_path := "src",
         data := [], ts := "20240101_000000" }] [] (by decide)
  · exact c2_cap_and_eviction.2
      { name := "A", source_type := "local", source_path := "src",
        data := [], ts := "20240102_000000" }
      [(CACHE_INDEX_FILE, FileData.indexFile
        { files := List.replicate 20
            { name := "B", source_type := "local", source_path := "other",
              cache_file := "B_20240101_000000.json",
              cached_at := "20240101_000000", count := 1 } })]
      { name := "B", source_type := "local", source_path := "other",
        cache_file := "B_20240101_000000.json",
        cached_at := "20240101_000000", count := 1 }
      (by decide) (by decide)

/-- Every path `os.path.join(CACHE_DIR, s)` produces is absolute. -/
theorem osPathJoin_cache_absolute (s : String) :
    (osPathJoin CACHE_DIR s).data.head? = some '/' := by
  unfold osPathJoin
  by_cases h : s.data.head? = some '/'
  · rw [if_pos h]; exact h
  · rw [if_neg h]
    rw [String.data_append, String.data_append]
    rw [show CACHE_DIR.data = '/' :: "home/user/.hanja_memorizer".data from rfl]
    rfl

/-- Joining an already-joined (hence absolute) path onto `CACHE_DIR` again
returns it unchanged, as `os.path.join` does for absolute second
arguments. -/
theorem osPathJoin_idem (s : String) :
    osPathJoin CACHE_DIR (osPathJoin CACHE_DIR s) = osPathJoin CACHE_DIR s := by
  have h := osPathJoin_cache_absolute s
  rw [show osPathJoin CACHE_DIR (osPathJoin CACHE_DIR s)
      = if (osPathJoin CACHE_DIR s).data.head? = some '/' then osPathJoin CACHE_DIR s
        else CACHE_DIR ++ "/" ++ osPathJoin CACHE_DIR s from rfl]
  rw [if_pos h]

/-- C3 (amended): loading the file reference returned by `add_to_cache`
yields exactly the stored records, provided the freshly generated cache file
path is not also the backing path of an entry evicted by the same call (in
particular whenever nothing is evicted, or all backing filenames are
distinct from the new one). -/
theorem c3_roundtrip_of_fresh_filename
    (name st sp ts : String) (data : List HanjaRecord) (fs : Fs)
    (hts : validTimestamp ts = true)
    (hfresh : ∀ o ∈ evictedBy name st sp data ts fs,
        osPathJoin CACHE_DIR o.cache_file
          ≠ osPathJoin CACHE_DIR (cacheFilename name ts)) :
    load_from_cache (add_to_cache name st sp data ts fs).1
        (add_to_cache name st sp data ts fs).2
      = LoadResult.loaded (FileData.recordsFile data) := by
  rw [add_to_cache_snd]
  unfold load_from_cache
  rw [osPathJoin_idem (cacheFilename name ts)]
  rw [fsLookup_after_add name st sp data ts fs _
    (cacheFilepath_ne_indexFile name ts hts)]
  have hno : ¬ ∃ o ∈ evictedBy name st sp data ts fs,
      osPathJoin CACHE_DIR o.cache_file
        = osPathJoin CACHE_DIR (cacheFilename name ts) := by
    rintro ⟨o, ho, heq⟩
    exact hfresh o ho heq
  rw [if_neg hno]
  unfold writtenFs
  rw [fsLookup_write, if_pos rfl]

/-- Witness for C3 (amended) at the empty starting state, where nothing is
evicted. -/
theorem c3_roundtrip_of_fresh_filename_witness :
    (validTimestamp "20240101_000000" = true
      ∧ ∀ o ∈ evictedBy "A" "local" "src"
            [{ hanja := "一", reading := "il", meaning := "one" }]
            "20240101_000000" [],
          osPathJoin CACHE_DIR o.cache_file
            ≠ osPathJoin CACHE_DIR (cacheFilename "A" "20240101_000000"))
    ∧ load_from_cache
        (add_to_cache "A" "local" "src"
          [{ hanja := "一", reading := "il", meaning := "one" }]
          "20240101_000000" []).1
        (add_to_cache "A" "local" "src"
          [{ hanja := "一", reading := "il", meaning := "one" }]
          "20240101_000000" []).2
      = LoadResult.loaded (FileData.recordsFile
          [{ hanja := "一", reading := "il", meaning := "one" }]) := by
  refine ⟨⟨by decide, by decide⟩, ?_⟩
  exact c3_roundtrip_of_fresh_filename "A" "local" "src" "20240101_000000"
    [{ hanja := "一", reading := "il", meaning := "one" }] []
    (by decide) (by decide)

/-- C3 counterexample: starting from a reachable 20-entry index whose oldest
entry's backing filename coincides with the newly generated one (same
sanitized name and same strftime second), `add_to_cache` evicts that entry
and thereby deletes the file it has just written, so loading the returned
reference yields `None` instead of the stored records. -/
theorem c3_roundtrip_counterexample :
    load_from_cache
        (add_to_cache "A" "local" "src"
          [{ hanja := "一", reading := "il", meaning := "one" }] "20240101_000000"
          [(CACHE_INDEX_FILE, FileData.indexFile
            { files := List.replicate 20
                { name := "A", source_type := "local", source_path := "other",
                  cache_file := "A_20240101_000000.json",
                  cached_at := "20240101_000000", count := 1 } })]).1
        (add_to_cache "A" "local" "src"
          [{ hanja := "一", reading := "il", meaning := "one" }] "20240101_000000"
          [(CACHE_INDEX_FILE, FileData.indexFile
            { files := List.replicate 20
                { name := "A", source_type := "local", source_path := "other",
                  cache_file := "A_20240101_000000.json",
                  cached_at := "20240101_000000", count := 1 } })]).2
      = LoadResult.noneResult
    ∧ LoadResult.noneResult
      ≠ LoadResult.loaded (FileData.recordsFile
          [{ hanja := "一", reading := "il", meaning := "one" }]) := by
  exact ⟨by decide, by decide⟩

/-- C9 (amended): `add_to_cache` changes nothing on disk outside the newly
generated cache file path, the index file path, and the backing paths of the
entries it evicts.  In particular a replaced (deduplicated) entry's backing
file is untouched whenever its path is not the newly generated one. -/
theorem c9_untouched_paths_unchanged
    (name st sp ts : String) (data : List HanjaRecord) (fs : Fs) (p : String)
    (hp1 : p ≠ osPathJoin CACHE_DIR (cacheFilename name ts))
    (hp2 : p ≠ CACHE_INDEX_FILE)
    (hp3 : ∀ o ∈ evictedBy name st sp data ts fs,
        osPathJoin CACHE_DIR o.cache_file ≠ p) :
    fsLookup (add_to_cache name st sp data ts fs).1 p = fsLookup fs p := by
  rw [fsLookup_after_add name st sp data ts fs p hp2]
  have hno : ¬ ∃ o ∈ evictedBy name st sp data ts fs,
      osPathJoin CACHE_DIR o.cache_file = p := by
    rintro ⟨o, ho, heq⟩
    exact hp3 o ho heq
  rw [if_neg hno]
  unfold writtenFs
  rw [fsLookup_write, if_neg (fun h => hp1 h.symm)]

/-- Witness for C9 (amended): a bystander cache file survives an
`add_to_cache` call unchanged. -/
theorem c9_untouched_paths_unchanged_witness :
    fsLookup
        (add_to_cache "A" "local" "src"
          [{ hanja := "一", reading := "il", meaning := "one" }]
          "20240101_000000"
          [(osPathJoin CACHE_DIR "keep.json", FileData.recordsFile [])]).1
        (osPathJoin CACHE_DIR "keep.json")
      = fsLookup [(osPathJoin CACHE_DIR "keep.json", FileData.recordsFile [])]
          (osPathJoin CACHE_DIR "keep.json") := by
  exact c9_untouched_paths_unchanged "A" "local" "src" "20240101_000000"
    [{ hanja := "一", reading := "il", meaning := "one" }]
    [(osPathJoin CACHE_DIR "keep.json", FileData.recordsFile [])]
    (osPathJoin CACHE_DIR "keep.json")
    (by decide) (by decide) (by decide)

/-- C9 counterexample: when the same source is re-added within the same
strftime second under the same name, the generated filename equals the
replaced entry's backing filename, and the replaced entry's cache file is
overwritten on disk rather than left unchanged — even though nothing is
evicted. -/
theorem c9_replaced_file_changed_counterexample :
    fsLookup
        [(CACHE_INDEX_FILE, FileData.indexFile
          { files := [{ name := "A", source_type := "local", source_path := "src",
                        cache_file := "A_20240101_000000.json",
                        cached_at := "20240101_000000", count := 1 }] }),
         (osPathJoin CACHE_DIR "A_20240101_000000.json",
          FileData.recordsFile [{ hanja := "一", reading := "il", meaning := "one" }])]
        (osPathJoin CACHE_DIR "A_20240101_000000.json")
      = some (FileData.recordsFile [{ hanja := "一", reading := "il", meaning := "one" }])
    ∧ evictedBy "A" "local" "src"
        [{ hanja := "二", reading := "i", meaning := "two" }] "20240101_000000"
        [(CACHE_INDEX_FILE, FileData.indexFile
          { files := [{ name := "A", source_type := "local", source_path := "src",
                        cache_file := "A_20240101_000000.json",
                        cached_at := "20240101_000000", count := 1 }] }),
         (osPathJoin CACHE_DIR "A_20240101_000000.json",
          FileData.recordsFile [{ hanja := "一", reading := "il", meaning := "one" }])]
      = []
    ∧ fsLookup
        (add_to_cache "A" "local" "src"
          [{ hanja := "二", reading := "i", meaning := "two" }] "20240101_000000"
          [(CACHE_INDEX_FILE, FileData.indexFile
            { files := [{ name := "A", source_type := "local", source_path := "src",
                          cache_file := "A_20240101_000000.json",
                          cached_at := "20240101_000000", count := 1 }] }),
           (osPathJoin CACHE_DIR "A_20240101_000000.json",
            FileData.recordsFile
              [{ hanja := "一", reading := "il", meaning := "one" }])]).1
        (osPathJoin CACHE_DIR "A_20240101_000000.json")
      = some (FileData.recordsFile [{ hanja := "二", reading := "i", meaning := "two" }])
    ∧ FileData.recordsFile [{ hanja := "二", reading := "i", meaning := "two" }]
      ≠ FileData.recordsFile [{ hanja := "一", reading := "il", meaning := "one" }] := by
  exact ⟨by decide, by decide, by decide, by decide⟩

/-- C6 counterexample: the action trace of `save_cache_index` is two in-place
actions on the final index path — no temporary file, no rename — and a crash
after the first action (the truncating open) leaves the index file corrupt:
the prior valid persisted index is not intact, and reloading yields the
empty index instead of the prior one. -/
theorem c6_save_not_atomic_counterexample :
    save_cache_index_ops { files := [] }
      = [FsOp.openTrunc CACHE_INDEX_FILE,
         FsOp.writeAll CACHE_INDEX_FILE (FileData.indexFile { files := [] })]
    ∧ fsLookup
        (applyOps
          [(CACHE_INDEX_FILE, FileData.indexFile
            { files := [{ name := "B", source_type := "local", source_path := "src",
                          cache_file := "B_20240101_000000.json",
                          cached_at := "20240101_000000", count := 1 }] })]
          ((save_cache_index_ops { files := [] }).take 1))
        CACHE_INDEX_FILE
      = some FileData.corrupt
    ∧ load_cache_index
        (applyOps
          [(CACHE_INDEX_FILE, FileData.indexFile
            { files := [{ name := "B", source_type := "local", source_path := "src",
                          cache_file := "B_20240101_000000.json",
                          cached_at := "20240101_000000", count := 1 }] })]
          ((save_cache_index_ops { files := [] }).take 1))
      ≠ { files := [{ name := "B", source_type := "local", source_path := "src",
                      cache_file := "B_20240101_000000.json",
                      cached_at := "20240101_000000", count := 1 }] } := by
  exact ⟨rfl, by decide, by decide⟩

/-- C6 (amended): `save_cache_index` overwrites the index file in place by
truncating and rewriting it; a completed save persists the new index, while
a crash between the truncating open and the write leaves a file that
`load_cache_index` reads as the empty index — the prior index is lost, not
preserved. -/
theorem c6_save_overwrites_in_place (idx : CacheIndex) (fs : Fs) :
    load_cache_index (applyOps fs (save_cache_index_ops idx)) = idx
    ∧ load_cache_index (applyOps fs ((save_cache_index_ops idx).take 1))
      = { files := [] } := by
  constructor
  · rw [show applyOps fs (save_cache_index_ops idx)
        = fsWrite (fsWrite fs CACHE_INDEX_FILE FileData.corrupt) CACHE_INDEX_FILE
            (FileData.indexFile idx) from rfl]
    exact load_cache_index_write_index _ idx
  · rw [show applyOps fs ((save_cache_index_ops idx).take 1)
        = fsWrite fs CACHE_INDEX_FILE FileData.corrupt from rfl]
    unfold load_cache_index
    rw [fsLookup_write, if_pos rfl]

/-- C7: `load_cache_index` returns the empty index, rather than failing,
both when the index file is absent and when its content is unparsable. -/
theorem c7_load_index_self_healing (fs : Fs) :
    (fsLookup fs CACHE_INDEX_FILE = none → load_cache_index fs = { files := [] })
    ∧ (fsLookup fs CACHE_INDEX_FILE = some FileData.corrupt
        → load_cache_index fs = { files := [] }) := by
  constructor
  · intro h
    unfold load_cache_index
    rw [h]
  · intro h
    unfold load_cache_index
    rw [h]

/-- Witness for C7: the empty filesystem (index absent) and a filesystem
whose index file is corrupt. -/
theorem c7_load_index_self_healing_witness :
    load_cache_index [] = { files := [] }
    ∧ load_cache_index [(CACHE_INDEX_FILE, FileData.corrupt)] = { files := [] } :=
  ⟨(c7_load_index_self_healing []).1 rfl,
   (c7_load_index_self_healing [(CACHE_INDEX_FILE, FileData.corrupt)]).2 (by decide)⟩

/-- C8: `load_from_cache` on a reference whose backing file does not exist
returns `None` (not an error and not an exception). -/
theorem c8_missing_cache_file_absent (fs : Fs) (ref : String)
    (h : fsLookup fs (osPathJoin CACHE_DIR ref) = none) :
    load_from_cache fs ref = LoadResult.noneResult := by
  unfold load_from_cache
  rw [h]

/-- Witness for C8 at the empty filesystem. -/
theorem c8_missing_cache_file_absent_witness :
    load_from_cache [] "missing.json" = LoadResult.noneResult :=
  c8_missing_cache_file_absent [] "missing.json" rfl

/-- C4 (amended): `parse_dataframe` includes a well-formed row exactly when
its character string is non-empty, differs from the literal string "nan",
and differs from the header label — the row-by-row description
`parseRowsSpec` — and on the spec's three-row example it yields exactly the
single record for 漢. -/
theorem c4_parse_rows_corrected (rows : List (List (Option String))) :
    parse_dataframe rows = parseRowsSpec rows
    ∧ parse_dataframe
        [[some "1", some "漢", some "han", some "Chinese"],
         [some "2", some "", some "", some ""],
         [some "idx", some "한자", some "", some ""]]
      = [{ hanja := "漢", reading := "han", meaning := "Chinese" }] := by
  constructor
  · induction rows with
    | nil => rfl
    | cons row rest ih =>
      cases h1 : row.get? 1 with
      | none =>
        simp only [parse_dataframe, parseRowsSpec, List.filterMap_cons, h1]
        exact ih
      | some c1 =>
        cases h2 : row.get? 2 with
        | none =>
          simp only [parse_dataframe, parseRowsSpec, List.filterMap_cons, h1, h2]
          exact ih
        | some c2 =>
          cases h3 : row.get? 3 with
          | none =>
            simp only [parse_dataframe, parseRowsSpec, List.filterMap_cons, h1, h2, h3]
            exact ih
          | some c3 =>
            simp only [parse_dataframe, parseRowsSpec, List.filterMap_cons, h1, h2, h3]
            by_cases hc : cellStr c1 ≠ "" ∧ cellStr c1 ≠ "nan" ∧ cellStr c1 ≠ "한자"
            · simp only [if_pos hc]
              rw [ih]
              rfl
            · simp only [if_neg hc]
              exact ih
  · decide

/-- C4 counterexample: a well-formed row whose character cell holds the
literal string "nan" satisfies the claim's inclusion condition (non-empty
and not the header label) yet is excluded by `parse_dataframe`. -/
theorem c4_nan_row_counterexample :
    parse_dataframe [[some "1", some "nan", some "r", some "m"]] = []
    ∧ cellStr (some "nan") ≠ ""
    ∧ cellStr (some "nan") ≠ "한자" := by
  exact ⟨rfl, by decide, by decide⟩

/-- C10: no record produced by `parse_dataframe` has the literal string
"nan" as its character. -/
theorem c10_no_nan_character (rows : List (List (Option String))) (r : HanjaRecord)
    (h : r ∈ parse_dataframe rows) : r.hanja ≠ "nan" := by
  induction rows with
  | nil => simp [parse_dataframe] at h
  | cons row rest ih =>
    cases h1 : row.get? 1 with
    | none =>
      simp only [parse_dataframe, h1] at h
      exact ih h
    | some c1 =>
      cases h2 : row.get? 2 with
      | none =>
        simp only [parse_dataframe, h1, h2] at h
        exact ih h
      | some c2 =>
        cases h3 : row.get? 3 with
        | none =>
          simp only [parse_dataframe, h1, h2, h3] at h
          exact ih h
        | some c3 =>
          simp only [parse_dataframe, h1, h2, h3] at h
          by_cases hc : cellStr c1 ≠ "" ∧ cellStr c1 ≠ "nan" ∧ cellStr c1 ≠ "한자"
          · rw [if_pos hc] at h
            rcases List.mem_cons.1 h with hr | hr
            · subst hr
              exact hc.2.1
            · exact ih hr
          · rw [if_neg hc] at h
            exact ih h

/-- Witness for C10 on a concrete parsed row. -/
theorem c10_no_nan_character_witness :
    ({ hanja := "漢", reading := "han", meaning := "x" } : HanjaRecord).hanja ≠ "nan" :=
  c10_no_nan_character [[some "1", some "漢", some "han", some "x"]]
    { hanja := "漢", reading := "han", meaning := "x" } (by decide)

/-- A matched literal is an initial segment: the scanned string decomposes
as the literal followed by the remaining characters. -/
theorem isPrefixOf_append_drop (l : List Char) :
    ∀ s : List Char, l.isPrefixOf s = true → s = l ++ s.drop l.length := by
  induction l with
  | nil =>
    intro s _
    simp
  | cons a as ih =>
    intro s h
    cases s with
    | nil => simp [List.isPrefixOf] at h
    | cons b bs =>
      simp only [List.isPrefixOf, Bool.and_eq_true, beq_iff_eq] at h
      obtain ⟨hab, h2⟩ := h
      subst hab
      simp only [List.length_cons, List.drop_succ_cons, List.cons_append,
        List.cons.injEq, true_and]
      exact ih bs h2

/-- The literal always matches at the front of itself followed by
anything. -/
theorem isPrefixOf_append_self (l t : List Char) : l.isPrefixOf (l ++ t) = true := by
  induction l with
  | nil => simp [List.isPrefixOf]
  | cons a as ih => simp [List.isPrefixOf, ih]

/-- Correctness of the scan: `searchLitRun` finds a match exactly when the
string decomposes as some prelude, the literal, and at least one identifier
character. -/
theorem searchLitRun_isSome_iff (lit : List Char) (s : List Char) :
    (searchLitRun lit s).isSome = true
      ↔ ∃ pre c rest, s = pre ++ lit ++ c :: rest ∧ isSheetIdChar c = true := by
  induction s with
  | nil =>
    constructor
    · intro h
      exact absurd h (by simp [searchLitRun])
    · rintro ⟨pre, c, rest, hEq, _⟩
      exact absurd hEq (by simp)
  | cons b bs ih =>
    simp only [searchLitRun]
    by_cases hpre : lit.isPrefixOf (b :: bs) = true
    · rw [if_pos hpre]
      by_cases hrun : (((b :: bs).drop lit.length).takeWhile isSheetIdChar).isEmpty = true
      · rw [if_pos hrun, ih]
        constructor
        · rintro ⟨pre, c, rest, hEq, hc⟩
          exact ⟨b :: pre, c, rest, by simp [hEq], hc⟩
        · rintro ⟨pre, c, rest, hEq, hc⟩
          cases pre with
          | nil =>
            exfalso
            simp only [List.nil_append] at hEq
            have hdrop : (b :: bs).drop lit.length = c :: rest := by
              rw [hEq]
              exact List.drop_left lit (c :: rest)
            rw [hdrop] at hrun
            simp [List.takeWhile_cons, hc] at hrun
          | cons p ps =>
            simp only [List.cons_append, List.cons.injEq] at hEq
            exact ⟨ps, c, rest, hEq.2, hc⟩
      · rw [if_neg hrun]
        simp only [Option.isSome_some, true_iff]
        have hs := isPrefixOf_append_drop lit (b :: bs) hpre
        cases hd : (b :: bs).drop lit.length with
        | nil =>
          rw [hd] at hrun
          simp at hrun
        | cons c cs =>
          by_cases hc : isSheetIdChar c = true
          · refine ⟨[], c, cs, ?_, hc⟩
            rw [hd] at hs
            simpa using hs
          · exfalso
            rw [hd] at hrun
            simp [List.takeWhile_cons, hc] at hrun
    · rw [if_neg hpre, ih]
      constructor
      · rintro ⟨pre, c, rest, hEq, hc⟩
        exact ⟨b :: pre, c, rest, by simp [hEq], hc⟩
      · rintro ⟨pre, c, rest, hEq, hc⟩
        cases pre with
        | nil =>
          exfalso
          simp only [List.nil_append] at hEq
          apply hpre
          rw [hEq]
          exact isPrefixOf_append_self lit (c :: rest)
        | cons p ps =>
          simp only [List.cons_append, List.cons.injEq] at hEq
          exact ⟨ps, c, rest, hEq.2, hc⟩

/-- The captured group is a non-empty run of identifier-class characters. -/
theorem searchLitRun_some_facts (lit : List Char) :
    ∀ (s r : List Char), searchLitRun lit s = some r
      → r ≠ [] ∧ ∀ c ∈ r, isSheetIdChar c = true := by
  intro s
  induction s with
  | nil =>
    intro r h
    simp [searchLitRun] at h
  | cons b bs ih =>
    intro r h
    simp only [searchLitRun] at h
    by_cases hpre : lit.isPrefixOf (b :: bs) = true
    · rw [if_pos hpre] at h
      by_cases hrun : (((b :: bs).drop lit.length).takeWhile isSheetIdChar).isEmpty = true
      · rw [if_pos hrun] at h
        exact ih r h
      · rw [if_neg hrun] at h
        have hr : r = ((b :: bs).drop lit.length).takeWhile isSheetIdChar :=
          (Option.some.inj h).symm
        subst hr
        constructor
        · intro hnil
          rw [hnil] at hrun
          exact hrun rfl
        · intro c hc
          exact List.mem_takeWhile_imp hc
    · rw [if_neg hpre] at h
      exact ih r h

/-- The extracted sheet id, when present, is a non-empty string of
identifier-class characters. -/
theorem extract_google_sheet_id_facts (url i : String)
    (h : extract_google_sheet_id url = some i) :
    i.data ≠ [] ∧ ∀ c ∈ i.data, isSheetIdChar c = true := by
  unfold extract_google_sheet_id at h
  cases h1 : searchLitRun "/spreadsheets/d/".data url.data with
  | some r =>
    rw [h1] at h
    have hi : i = String.mk r := (Option.some.inj h).symm
    subst hi
    exact searchLitRun_some_facts "/spreadsheets/d/".data url.data r h1
  | none =>
    rw [h1] at h
    cases h2 : searchLitRun "id=".data url.data with
    | some r =>
      rw [h2] at h
      have hi : i = String.mk r := (Option.some.inj h).symm
      subst hi
      exact searchLitRun_some_facts "id=".data url.data r h2
    | none =>
      rw [h2] at h
      exact absurd h (by simp)

/-- A sheet id is extracted exactly when one of the two patterns matches. -/
theorem extract_google_sheet_id_isSome_iff (url : String) :
    (extract_google_sheet_id url).isSome = true
      ↔ PatMatches "/spreadsheets/d/" url ∨ PatMatches "id=" url := by
  unfold extract_google_sheet_id PatMatches
  cases h1 : searchLitRun "/spreadsheets/d/".data url.data with
  | some r =>
    have hs : (searchLitRun "/spreadsheets/d/".data url.data).isSome = true := by
      rw [h1]; rfl
    rw [searchLitRun_isSome_iff] at hs
    exact iff_of_true rfl (Or.inl hs)
  | none =>
    have hs : ¬ (searchLitRun "/spreadsheets/d/".data url.data).isSome = true := by
      rw [h1]; simp
    rw [searchLitRun_isSome_iff] at hs
    cases h2 : searchLitRun "id=".data url.data with
    | some r =>
      have hs2 : (searchLitRun "id=".data url.data).isSome = true := by
        rw [h2]; rfl
      rw [searchLitRun_isSome_iff] at hs2
      exact iff_of_true rfl (Or.inr hs2)
    | none =>
      have hs2 : ¬ (searchLitRun "id=".data url.data).isSome = true := by
        rw [h2]; simp
      rw [searchLitRun_isSome_iff] at hs2
      refine iff_of_false (by simp) ?_
      rintro (h | h)
      · exact hs h
      · exact hs2 h

/-- C5: `get_google_sheet_csv_url` (with the default gid "0") returns an
export URL exactly when one of the two identifier patterns matches the given
URL; every returned URL has the templated export form around a non-empty
identifier; and on the spec's example URL it returns the ABC123 CSV-export
URL. -/
theorem c5_resolve_remote (url : String) :
    ((get_google_sheet_csv_url url "0").isSome = true
        ↔ PatMatches "/spreadsheets/d/" url ∨ PatMatches "id=" url)
    ∧ (∀ e, get_google_sheet_csv_url url "0" = some e
        → ∃ i : String, i.data ≠ []
            ∧ (∀ c ∈ i.data, isSheetIdChar c = true)
            ∧ e = "https://docs.google.com/spreadsheets/d/" ++ i
                ++ "/export?format=csv&gid=" ++ "0")
    ∧ get_google_sheet_csv_url "https://docs.google.com/spreadsheets/d/ABC123/edit" "0"
        = some "https://docs.google.com/spreadsheets/d/ABC123/export?format=csv&gid=0" := by
  refine ⟨?_, ?_, ?_⟩
  · rw [← extract_google_sheet_id_isSome_iff]
    unfold get_google_sheet_csv_url
    cases h : extract_google_sheet_id url with
    | some i => simp
    | none => simp
  · intro e he
    unfold get_google_sheet_csv_url at he
    cases h : extract_google_sheet_id url with
    | none =>
      rw [h] at he
      exact absurd he (by simp)
    | some i =>
      rw [h] at he
      obtain ⟨hne, hall⟩ := extract_google_sheet_id_facts url i h
      exact ⟨i, hne, hall, (Option.some.inj he).symm⟩
  · decide

/-- Witness for C5: the export URL produced for the spec's example has the
templated form around the non-empty identifier ABC123. -/
theorem c5_resolve_remote_witness :
    ∃ i : String, i.data ≠ []
      ∧ (∀ c ∈ i.data, isSheetIdChar c = true)
      ∧ "https://docs.google.com/spreadsheets/d/ABC123/export?format=csv&gid=0"
        = "https://docs.google.com/spreadsheets/d/" ++ i
            ++ "/export?format=csv&gid=" ++ "0" :=
  (c5_resolve_remote "https://docs.google.com/spreadsheets/d/ABC123/edit").2.1
    "https://docs.google.com/spreadsheets/d/ABC123/export?format=csv&gid=0"
    (by decide)
